import Mathlib

/-!
# Snake game core: a shallow embedding of `Game.hpp` / `Game.cpp`

The simulation core of the game (classes `Snake`, `Fruit` and the state
handling of `Game`) is translated function by function.

Modelling conventions

* `int` coordinates, the `int` score and `sf::Time` (a count of
  microseconds) are `Int`. Signed overflow is undefined in C++, so the model
  agrees with the program wherever the program's arithmetic is defined.
* `float gameSpeed` is a rational number. Every value the game stores in it
  (150, 145, ..., 50) is an integer, so no rounding takes place.
* `std::vector<Position>` is `List Position`, head of the snake first.
  `body.front()` on an empty vector is undefined; the functions that call it
  return `none` there.
* The generator `std::mt19937 rng` of a `Fruit` is the list of the positions
  `Position(xDist(rng), yDist(rng))` it is still going to produce. A
  `do ... while` loop that uses up the whole list without leaving returns
  `none`.
* Window, fonts, textures and sound playback are presentation and carry no
  game state; of the window only the open flag is kept.
-/

namespace SnakeGame

/-! ## Game.hpp: enumerations and `Position` -/

inductive GameState where
  | MENU
  | PLAYING
  | PAUSED
  | GAME_OVER
  deriving DecidableEq, Repr

inductive Direction where
  | UP
  | DOWN
  | LEFT
  | RIGHT
  deriving DecidableEq, Repr

structure Position where
  x : Int
  y : Int
  deriving DecidableEq, Repr

/-- The member `Position::operator==`: `x == other.x && y == other.y`. -/
def Position.opEq (p other : Position) : Bool :=
  decide (p.x = other.x) && decide (p.y = other.y)

/-- The member `Position::operator+`: `Position(x + other.x, y + other.y)`. -/
def Position.add (p other : Position) : Position :=
  ⟨p.x + other.x, p.y + other.y⟩

instance : Add Position := ⟨Position.add⟩

/-! ## class Snake -/

structure Snake where
  body : List Position
  direction : Direction
  nextDirection : Direction
  deriving DecidableEq, Repr

/-- The `switch` that `Snake::move` and `Snake::grow` both run on the
committed direction to fill `directionVector`. -/
def directionVector : Direction → Position
  | Direction.UP => ⟨0, -1⟩
  | Direction.DOWN => ⟨0, 1⟩
  | Direction.LEFT => ⟨-1, 0⟩
  | Direction.RIGHT => ⟨1, 0⟩

/-- The method `Snake::reset`. -/
def Snake.reset (_s : Snake) : Snake :=
  { body := [⟨20, 15⟩, ⟨19, 15⟩, ⟨18, 15⟩]
    direction := Direction.RIGHT
    nextDirection := Direction.RIGHT }

/-- The constructor `Snake::Snake`: both directions `RIGHT`, then `reset()`. -/
def Snake.new : Snake :=
  Snake.reset { body := [], direction := Direction.RIGHT, nextDirection := Direction.RIGHT }

/-- The accessor `Snake::getHead`, `body.front()`. -/
def Snake.getHead (s : Snake) : Option Position :=
  s.body.head?

/-- The method `Snake::move`: commit `nextDirection`, insert the new head at the
front, `pop_back`. -/
def Snake.move (s : Snake) : Option Snake :=
  let direction := s.nextDirection
  match s.body.head? with
  | none => none
  | some front =>
    let newHead := front + directionVector direction
    some { body := (newHead :: s.body).dropLast
           direction := direction
           nextDirection := s.nextDirection }

/-- The method `Snake::grow`: insert a new head at the front, keep the tail. -/
def Snake.grow (s : Snake) : Option Snake :=
  match s.body.head? with
  | none => none
  | some front =>
    let newHead := front + directionVector s.direction
    some { s with body := newHead :: s.body }

/-- The method `Snake::setDirection`. -/
def Snake.setDirection (s : Snake) (dir : Direction) : Snake :=
  let canChangeDirection : Bool :=
    match dir with
    | Direction.UP => decide (s.direction ≠ Direction.DOWN)
    | Direction.DOWN => decide (s.direction ≠ Direction.UP)
    | Direction.LEFT => decide (s.direction ≠ Direction.RIGHT)
    | Direction.RIGHT => decide (s.direction ≠ Direction.LEFT)
  if canChangeDirection then { s with nextDirection := dir } else s

/-- The `for` loop of `Snake::checkSelfCollision` over the segments at the
indices `1 .. size - 1`, given here as the list of those segments. -/
def Snake.checkSelfCollision.loop (head : Position) : List Position → Bool
  | [] => false
  | seg :: rest => if head.opEq seg then true else loop head rest

/-- The method `Snake::checkSelfCollision`. -/
def Snake.checkSelfCollision (s : Snake) : Option Bool :=
  match s.body with
  | [] => none
  | head :: rest => some (Snake.checkSelfCollision.loop head rest)

/-! ## class Fruit -/

structure Fruit where
  position : Position
  /-- The first constructor argument: `xDist` is uniform on `0 .. gridWidth - 1`. -/
  gridWidth : Int
  /-- The second constructor argument: `yDist` is uniform on `0 .. gridHeight - 1`. -/
  gridHeight : Int
  /-- The positions `Position(xDist(rng), yDist(rng))` still to be produced. -/
  rng : List Position
  deriving DecidableEq, Repr

/-- What `std::uniform_int_distribution<int>(0, n - 1)` promises of each value
it returns, said of every position the generator of this fruit will produce. -/
def Fruit.rngInRange (f : Fruit) : Prop :=
  ∀ p ∈ f.rng,
    (0 ≤ p.x ∧ p.x ≤ f.gridWidth - 1) ∧ (0 ≤ p.y ∧ p.y ≤ f.gridHeight - 1)

instance (f : Fruit) : Decidable f.rngInRange := by
  unfold Fruit.rngInRange; infer_instance

/-- The constructor `Fruit::Fruit(gridWidth, gridHeight)`: one draw, no check. -/
def Fruit.new (gridWidth gridHeight : Int) (rng : List Position) : Option Fruit :=
  match rng with
  | [] => none
  | p :: rest =>
    some { position := p, gridWidth := gridWidth, gridHeight := gridHeight, rng := rest }

/-- The test `std::find(snakeBody.begin(), snakeBody.end(), position) != snakeBody.end()`. -/
def found (snakeBody : List Position) (position : Position) : Bool :=
  match snakeBody with
  | [] => false
  | seg :: rest => if seg.opEq position then true else found rest position

/-- The `do ... while` loop of `Fruit::respawn`: draw, and draw again while the
draw is found in `snakeBody`. Returns the position kept and the generator left. -/
def Fruit.respawn.loop (snakeBody : List Position) :
    List Position → Option (Position × List Position)
  | [] => none
  | p :: rest => if found snakeBody p then loop snakeBody rest else some (p, rest)

/-- The method `Fruit::respawn`. -/
def Fruit.respawn (f : Fruit) (snakeBody : List Position) : Option Fruit :=
  match Fruit.respawn.loop snakeBody f.rng with
  | none => none
  | some (p, rest) => some { f with position := p, rng := rest }

/-! ## class AudioManager (the two flags) -/

structure AudioManager where
  soundEnabled : Bool
  musicEnabled : Bool
  deriving DecidableEq, Repr

def AudioManager.toggleSound (a : AudioManager) : AudioManager :=
  { a with soundEnabled := !a.soundEnabled }

def AudioManager.toggleMusic (a : AudioManager) : AudioManager :=
  { a with musicEnabled := !a.musicEnabled }

/-! ## class Game -/

def GRID_WIDTH : Int := 40
def GRID_HEIGHT : Int := 30
def BASE_SPEED : ℚ := 150
def SPEED_INCREASE : ℚ := 5

structure Game where
  /-- The flag `window.isOpen()`. -/
  windowOpen : Bool
  snake : Snake
  fruit : Fruit
  audioManager : AudioManager
  gameState : GameState
  score : Int
  gameSpeed : ℚ
  /-- An `sf::Time`, in microseconds. -/
  lastUpdate : Int
  prevSnakeBody : List Position
  deriving DecidableEq

/-- The constructor `Game::Game`: the fruit is built on the 40 x 30 grid, the
audio manager starts with both flags set, the game starts in `MENU`. -/
def Game.new (rng : List Position) : Option Game :=
  match Fruit.new GRID_WIDTH GRID_HEIGHT rng with
  | none => none
  | some fruit =>
    some { windowOpen := true, snake := Snake.new, fruit := fruit,
           audioManager := { soundEnabled := true, musicEnabled := true },
           gameState := GameState.MENU, score := 0, gameSpeed := BASE_SPEED, lastUpdate := 0,
           prevSnakeBody := [] }

/-- The method `Game::isValidPosition`. -/
def isValidPosition (pos : Position) : Bool :=
  decide (pos.x ≥ 0) && decide (pos.x < GRID_WIDTH) && decide (pos.y ≥ 0) &&
    decide (pos.y < GRID_HEIGHT)

/-- The method `Game::updateScore` (the score text it rebuilds is presentation). -/
def Game.updateScore (g : Game) : Game :=
  let g := { g with score := g.score + 10 }
  if g.gameSpeed > 50 then { g with gameSpeed := g.gameSpeed - SPEED_INCREASE } else g

/-- The method `Game::resetGame`; restarting `gameClock` is left to the caller of
`Game.update`, who supplies the elapsed time. -/
def Game.resetGame (g : Game) : Option Game :=
  let snake := g.snake.reset
  match g.fruit.respawn snake.body with
  | none => none
  | some fruit =>
    some { g with snake := snake, fruit := fruit, score := 0, gameSpeed := BASE_SPEED,
                  lastUpdate := 0 }

/-- The conversion `static_cast<int>(gameSpeed)`: truncation toward zero. -/
def floatToInt (v : ℚ) : Int :=
  Int.tdiv v.num v.den

/-- The factory `sf::milliseconds(amount)`, as microseconds. -/
def milliseconds (amount : Int) : Int :=
  amount * 1000

/-- The condition `elapsed - lastUpdate >= sf::milliseconds(static_cast<int>(gameSpeed))`. -/
def Game.tickDue (g : Game) (elapsed : Int) : Bool :=
  decide (elapsed - g.lastUpdate ≥ milliseconds (floatToInt g.gameSpeed))

/-- The method `Game::update`; `elapsed` is what `gameClock.getElapsedTime()` returns. -/
def Game.update (g : Game) (elapsed : Int) : Option Game :=
  if g.gameState ≠ GameState.PLAYING then some g
  else if g.tickDue elapsed then
    let g := { g with prevSnakeBody := g.snake.body }
    match g.snake.move with
    | none => none
    | some snake =>
      let g := { g with snake := snake }
      match g.snake.getHead with
      | none => none
      | some head =>
        if !isValidPosition head then some { g with gameState := GameState.GAME_OVER }
        else
          match g.snake.checkSelfCollision with
          | none => none
          | some true => some { g with gameState := GameState.GAME_OVER }
          | some false =>
            if head.opEq g.fruit.position then
              match g.snake.grow with
              | none => none
              | some snake =>
                let g := { g with snake := snake }
                match g.fruit.respawn g.snake.body with
                | none => none
                | some fruit =>
                  let g := { g with fruit := fruit }
                  let g := g.updateScore
                  some { g with lastUpdate := elapsed }
            else some { g with lastUpdate := elapsed }
  else some g

/-- The key codes `Game::handleEvents` tells apart; `Other` is any other key. -/
inductive Key where
  | Escape
  | Space
  | P
  | S
  | M
  | F
  | Up
  | Down
  | Left
  | Right
  | Other
  deriving DecidableEq, Repr

/-- The events `window.pollEvent()` returns; `Other` is any event that is neither
`sf::Event::Closed` nor `sf::Event::KeyPressed`. -/
inductive Event where
  | Closed
  | KeyPressed (code : Key)
  | Other
  deriving DecidableEq, Repr

/-- The body of the `while` loop of `Game::handleEvents`, for one polled event.
Key `F` only changes the font and playing the move sound changes no state. -/
def Game.handleEvent (g : Game) (event : Event) : Option Game :=
  match event with
  | Event.Closed => some { g with windowOpen := false }
  | Event.Other => some g
  | Event.KeyPressed code =>
    match code with
    | Key.Escape => some { g with windowOpen := false }
    | Key.Space =>
      if g.gameState = GameState.MENU ∨ g.gameState = GameState.GAME_OVER then
        match g.resetGame with
        | none => none
        | some g => some { g with gameState := GameState.PLAYING }
      else some g
    | Key.P =>
      if g.gameState = GameState.PLAYING then some { g with gameState := GameState.PAUSED }
      else if g.gameState = GameState.PAUSED then some { g with gameState := GameState.PLAYING }
      else some g
    | Key.S => some { g with audioManager := g.audioManager.toggleSound }
    | Key.M => some { g with audioManager := g.audioManager.toggleMusic }
    | Key.F => some g
    | Key.Up =>
      if g.gameState = GameState.PLAYING then
        some { g with snake := g.snake.setDirection Direction.UP }
      else some g
    | Key.Down =>
      if g.gameState = GameState.PLAYING then
        some { g with snake := g.snake.setDirection Direction.DOWN }
      else some g
    | Key.Left =>
      if g.gameState = GameState.PLAYING then
        some { g with snake := g.snake.setDirection Direction.LEFT }
      else some g
    | Key.Right =>
      if g.gameState = GameState.PLAYING then
        some { g with snake := g.snake.setDirection Direction.RIGHT }
      else some g
    | Key.Other => some g

/-- The method `Game::handleEvents`: the loop body for each pending event in turn. -/
def Game.handleEvents (g : Game) : List Event → Option Game
  | [] => some g
  | event :: pending =>
    match g.handleEvent event with
    | none => none
    | some g => Game.handleEvents g pending

/-- What the loop of `Game::run` feeds the game: a polled event, or one call of
`update` with the clock reading `elapsed`. -/
inductive Input where
  | event (e : Event)
  | poll (elapsed : Int)
  deriving DecidableEq, Repr

def Game.step (g : Game) : Input → Option Game
  | Input.event e => g.handleEvent e
  | Input.poll elapsed => g.update elapsed

/-- The game after a finite sequence of inputs, in the order `Game::run` meets them. -/
def Game.steps (g : Game) : List Input → Option Game
  | [] => some g
  | i :: rest =>
    match g.step i with
    | none => none
    | some g => Game.steps g rest

/-- A session of `Game::run`: the game is constructed with the generator `rng`
and then fed `inputs`. -/
def Game.play (rng : List Position) (inputs : List Input) : Option Game :=
  match Game.new rng with
  | none => none
  | some g => g.steps inputs

/-! ## Call sequences on a snake -/

/-- The snake after `k` consecutive calls of `Snake::move`. -/
def Snake.moves : Nat → Snake → Option Snake
  | 0, s => some s
  | k + 1, s =>
    match s.move with
    | none => none
    | some s => Snake.moves k s

/-- The snake after the calls `setDirection(d)` for each `d` of the list in turn. -/
def Snake.setDirections (s : Snake) : List Direction → Snake
  | [] => s
  | d :: rest => Snake.setDirections (s.setDirection d) rest

/-- One call of a mutating method of `Snake`. -/
inductive SnakeCall where
  | setDirection (d : Direction)
  | move
  | grow
  deriving DecidableEq, Repr

def Snake.call (s : Snake) : SnakeCall → Option Snake
  | SnakeCall.setDirection d => some (s.setDirection d)
  | SnakeCall.move => s.move
  | SnakeCall.grow => s.grow

/-- The snake after a finite sequence of calls. -/
def Snake.calls (s : Snake) : List SnakeCall → Option Snake
  | [] => some s
  | c :: rest =>
    match s.call c with
    | none => none
    | some s => Snake.calls s rest

/-! ## Example states -/

/-- A fruit on `(21,15)` of the 40 x 30 grid whose generator will produce
`(19,15)`, `(21,15)`, `(5,5)`, `(6,6)`. -/
def exampleFruit : Fruit :=
  { position := ⟨21, 15⟩, gridWidth := GRID_WIDTH, gridHeight := GRID_HEIGHT,
    rng := [⟨19, 15⟩, ⟨21, 15⟩, ⟨5, 5⟩, ⟨6, 6⟩] }

/-- A game in play with the values `resetGame` sets (reset snake, score 0, speed
150, last update 0) and `exampleFruit` as its fruit. -/
def exampleGame : Game :=
  { windowOpen := true, snake := Snake.new, fruit := exampleFruit,
    audioManager := { soundEnabled := true, musicEnabled := true },
    gameState := GameState.PLAYING, score := 0, gameSpeed := BASE_SPEED, lastUpdate := 0,
    prevSnakeBody := [] }

/-- A game in play whose snake has its head on `(0,15)`, in the leftmost column,
and faces `LEFT`. -/
def wallGame : Game :=
  { exampleGame with
    snake := { body := [⟨0, 15⟩, ⟨1, 15⟩, ⟨2, 15⟩], direction := Direction.LEFT,
               nextDirection := Direction.LEFT } }

/-- The game `exampleGame` after twenty fruits: score 200, speed at 50. -/
def slowestGame : Game :=
  { exampleGame with score := 200, gameSpeed := 50 }

/-- The draws of a generator that puts the fruits on `(21,15)`, `(23,15)`,
`(25,15)` and `(25,16)`; the first draw is used up by the constructor. -/
def loopRng : List Position :=
  [⟨5, 5⟩, ⟨21, 15⟩, ⟨23, 15⟩, ⟨25, 15⟩, ⟨25, 16⟩, ⟨0, 0⟩]

/-- A session: Space, three ticks to the right (a fruit each), Down, two ticks,
Left, one tick, Up, one tick onto the fruit at `(25,16)`. -/
def loopInputs : List Input :=
  [Input.event (Event.KeyPressed Key.Space),
   Input.poll 150000, Input.poll 300000, Input.poll 450000,
   Input.event (Event.KeyPressed Key.Down),
   Input.poll 600000, Input.poll 750000,
   Input.event (Event.KeyPressed Key.Left),
   Input.poll 900000,
   Input.event (Event.KeyPressed Key.Up),
   Input.poll 1050000]

/-- The draws of a generator that puts the first fruit on `(20,29)`, in the
bottom row; the first draw is used up by the constructor. -/
def wallRng : List Position :=
  [⟨5, 5⟩, ⟨20, 29⟩, ⟨0, 0⟩]

/-- A session: Space, Down, then fourteen ticks; the last one reaches the fruit
at `(20,29)`. -/
def wallInputs : List Input :=
  [Input.event (Event.KeyPressed Key.Space),
   Input.event (Event.KeyPressed Key.Down),
   Input.poll 150000, Input.poll 300000, Input.poll 450000, Input.poll 600000,
   Input.poll 750000, Input.poll 900000, Input.poll 1050000, Input.poll 1200000,
   Input.poll 1350000, Input.poll 1500000, Input.poll 1650000, Input.poll 1800000,
   Input.poll 1950000, Input.poll 2100000]

/-! ## Vocabulary of the specification -/

/-- The reverse pairs as the specification names them: `UP`/`DOWN` and
`LEFT`/`RIGHT`. -/
def Direction.reverse : Direction → Direction
  | Direction.UP => Direction.DOWN
  | Direction.DOWN => Direction.UP
  | Direction.LEFT => Direction.RIGHT
  | Direction.RIGHT => Direction.LEFT

/-- The shape of a snake that `reset`, `setDirection`, `move` and `grow` keep: at
least two segments, the head one step of the committed direction ahead of the
segment behind it, and a pending direction that is not the reverse of the
committed one. -/
def Snake.Steady (s : Snake) : Prop :=
  (∃ front behind rest, s.body = front :: behind :: rest ∧
    front = behind + directionVector s.direction) ∧
  s.nextDirection ≠ s.direction.reverse

/-- The values `gameSpeed` holds. The field is private and written in three
places only: the constructor and `resetGame` store `BASE_SPEED`, and
`updateScore` subtracts `SPEED_INCREASE` while the value is above 50. So it is
`BASE_SPEED - SPEED_INCREASE * k` for some `k ≤ 20`: one of 150, 145, ..., 50. -/
def Game.storedSpeed (g : Game) : Prop :=
  ∃ k : ℕ, k ≤ 20 ∧ g.gameSpeed = BASE_SPEED - SPEED_INCREASE * (k : ℚ)

/-! ## Helper lemmas -/

lemma Position.opEq_iff (p q : Position) : p.opEq q = true ↔ p = q := by
  cases p; cases q; simp [Position.opEq]

lemma Position.add_x (p q : Position) : (p + q).x = p.x + q.x := rfl

lemma Position.add_y (p q : Position) : (p + q).y = p.y + q.y := rfl

lemma checkSelfCollision_loop_iff (head : Position) (rest : List Position) :
    Snake.checkSelfCollision.loop head rest = true ↔ head ∈ rest := by
  induction rest with
  | nil => simp [Snake.checkSelfCollision.loop]
  | cons seg rest ih =>
    by_cases hs : head = seg
    · simp [Snake.checkSelfCollision.loop, hs, Position.opEq_iff]
    · have hne : head.opEq seg = false := by
        rw [Bool.eq_false_iff]; intro hc; exact hs ((Position.opEq_iff _ _).1 hc)
      simp [Snake.checkSelfCollision.loop, hne, ih, hs]

lemma found_iff (snakeBody : List Position) (position : Position) :
    found snakeBody position = true ↔ position ∈ snakeBody := by
  induction snakeBody with
  | nil => simp [found]
  | cons seg rest ih =>
    by_cases hs : seg = position
    · simp [found, hs, Position.opEq_iff]
    · have hne : seg.opEq position = false := by
        rw [Bool.eq_false_iff]; intro hc; exact hs ((Position.opEq_iff _ _).1 hc)
      have hs2 : ¬ position = seg := fun h => hs h.symm
      simp [found, hne, ih, hs2]

lemma Snake.move_cons (front : Position) (rest : List Position) (d nd : Direction) :
    Snake.move { body := front :: rest, direction := d, nextDirection := nd } =
      some { body := (front + directionVector nd) :: (front :: rest).dropLast,
             direction := nd, nextDirection := nd } := by
  simp [Snake.move]

lemma Snake.grow_cons (front : Position) (rest : List Position) (d nd : Direction) :
    Snake.grow { body := front :: rest, direction := d, nextDirection := nd } =
      some { body := (front + directionVector d) :: front :: rest,
             direction := d, nextDirection := nd } := by
  simp [Snake.grow]

/-! ## Snake: move, grow, setDirection, checkSelfCollision -/

/-- C3: on a non-empty body `Snake::move` returns; it commits the old
`nextDirection` as `direction`, and the new body is the old head plus the unit
vector of that direction, followed by the old body without its last segment.
The length is unchanged and the old segment at index `i` is the new segment at
index `i + 1`, for every old segment but the last. -/
theorem Snake.move_spec (s : Snake) (hne : s.body ≠ []) :
    ∃ head s', s.body.head? = some head ∧ s.move = some s' ∧
      s'.direction = s.nextDirection ∧ s'.nextDirection = s.nextDirection ∧
      s'.body = (head + directionVector s.nextDirection) :: s.body.dropLast ∧
      s'.body.length = s.body.length ∧
      ∀ i, i + 1 < s.body.length → s'.body[i + 1]? = s.body[i]? := by
  obtain ⟨body, d, nd⟩ := s
  cases body with
  | nil => exact absurd rfl hne
  | cons front rest =>
    refine ⟨front, _, rfl, Snake.move_cons front rest d nd, rfl, rfl, rfl, ?_, ?_⟩
    · simp
    · intro i hi
      simp only [List.length_cons] at hi
      simp only [List.getElem?_cons_succ, List.getElem?_dropLast, List.length_cons,
        Nat.add_sub_cancel]
      rw [if_pos (by omega)]

/-- Witness of C3: the reset snake `[(20,15),(19,15),(18,15)]` facing `RIGHT`
moves to `[(21,15),(20,15),(19,15)]`. -/
theorem Snake.move_spec_witness :
    (∃ head s', Snake.new.body.head? = some head ∧ Snake.new.move = some s' ∧
      s'.direction = Snake.new.nextDirection ∧ s'.nextDirection = Snake.new.nextDirection ∧
      s'.body = (head + directionVector Snake.new.nextDirection) :: Snake.new.body.dropLast ∧
      s'.body.length = Snake.new.body.length ∧
      ∀ i, i + 1 < Snake.new.body.length → s'.body[i + 1]? = Snake.new.body[i]?) ∧
    Snake.new.body = [⟨20, 15⟩, ⟨19, 15⟩, ⟨18, 15⟩] ∧
    Snake.new.move =
      some { body := [⟨21, 15⟩, ⟨20, 15⟩, ⟨19, 15⟩], direction := Direction.RIGHT,
             nextDirection := Direction.RIGHT } :=
  ⟨Snake.move_spec Snake.new (by decide), by decide, by decide⟩

/-- C4: on a non-empty body `Snake::grow` returns; the new body is the old head
plus the unit vector of the committed `direction` (whatever `nextDirection`
is), followed by the whole old body, so the length grows by one and every old
segment stays, one index further back; both directions are unchanged. -/
theorem Snake.grow_spec (s : Snake) (hne : s.body ≠ []) :
    ∃ head s', s.body.head? = some head ∧ s.grow = some s' ∧
      s'.body = (head + directionVector s.direction) :: s.body ∧
      s'.body.length = s.body.length + 1 ∧
      (∀ i, s'.body[i + 1]? = s.body[i]?) ∧
      s'.direction = s.direction ∧ s'.nextDirection = s.nextDirection := by
  obtain ⟨body, d, nd⟩ := s
  cases body with
  | nil => exact absurd rfl hne
  | cons front rest =>
    exact ⟨front, _, rfl, Snake.grow_cons front rest d nd, rfl, rfl, fun i => by simp, rfl, rfl⟩

/-- Witness of C4: a snake committed to `RIGHT` with `UP` pending grows to the
right, not upward. -/
theorem Snake.grow_spec_witness :
    (∃ head s',
      (Snake.new.setDirection Direction.UP).body.head? = some head ∧
      (Snake.new.setDirection Direction.UP).grow = some s' ∧
      s'.body = (head + directionVector (Snake.new.setDirection Direction.UP).direction) ::
        (Snake.new.setDirection Direction.UP).body ∧
      s'.body.length = (Snake.new.setDirection Direction.UP).body.length + 1 ∧
      (∀ i, s'.body[i + 1]? = (Snake.new.setDirection Direction.UP).body[i]?) ∧
      s'.direction = (Snake.new.setDirection Direction.UP).direction ∧
      s'.nextDirection = (Snake.new.setDirection Direction.UP).nextDirection) ∧
    (Snake.new.setDirection Direction.UP).grow =
      some { body := [⟨21, 15⟩, ⟨20, 15⟩, ⟨19, 15⟩, ⟨18, 15⟩], direction := Direction.RIGHT,
             nextDirection := Direction.UP } :=
  ⟨Snake.grow_spec (Snake.new.setDirection Direction.UP) (by decide), by decide⟩

/-- C5: `Snake::setDirection(d)` stores `d` in `nextDirection` when `d` is not
the reverse of the committed direction and leaves `nextDirection` alone when it
is; the committed direction and the body are unchanged either way. -/
theorem Snake.setDirection_spec (s : Snake) (d : Direction) :
    (d ≠ s.direction.reverse → (s.setDirection d).nextDirection = d) ∧
    (d = s.direction.reverse → (s.setDirection d).nextDirection = s.nextDirection) ∧
    (s.setDirection d).direction = s.direction ∧
    (s.setDirection d).body = s.body := by
  obtain ⟨body, dir, nd⟩ := s
  cases d <;> cases dir <;> simp [Snake.setDirection, Direction.reverse]

/-- C6: on a non-empty body `Snake::checkSelfCollision` returns `true` exactly
when the segment at some index `i` with `1 ≤ i < length` equals the head, and
`false` when the body has length 1. -/
theorem Snake.checkSelfCollision_spec (s : Snake) (hne : s.body ≠ []) :
    ∃ head b, s.body[0]? = some head ∧ s.checkSelfCollision = some b ∧
      (b = true ↔ ∃ i, 1 ≤ i ∧ i < s.body.length ∧ s.body[i]? = some head) ∧
      (s.body.length = 1 → b = false) := by
  obtain ⟨body, d, nd⟩ := s
  cases body with
  | nil => exact absurd rfl hne
  | cons front rest =>
    refine ⟨front, _, by simp, rfl, ?_, ?_⟩
    · rw [checkSelfCollision_loop_iff, List.mem_iff_getElem?]
      constructor
      · rintro ⟨n, hn⟩
        refine ⟨n + 1, by omega, ?_, by simpa using hn⟩
        have := (List.getElem?_eq_some_iff.1 hn).1
        simp only [List.length_cons]; omega
      · rintro ⟨i, hi1, _, hi⟩
        obtain ⟨n, rfl⟩ : ∃ n, i = n + 1 := ⟨i - 1, by omega⟩
        exact ⟨n, by simpa using hi⟩
    · intro hlen
      have : rest = [] := by
        simp only [List.length_cons] at hlen
        exact List.length_eq_zero.1 (by omega)
      subst this
      rfl

/-- Witness of C6: the reset snake does not collide with itself, a snake whose
head sits on its fourth segment does. -/
theorem Snake.checkSelfCollision_spec_witness :
    (∃ head b, Snake.new.body[0]? = some head ∧ Snake.new.checkSelfCollision = some b ∧
      (b = true ↔ ∃ i, 1 ≤ i ∧ i < Snake.new.body.length ∧ Snake.new.body[i]? = some head) ∧
      (Snake.new.body.length = 1 → b = false)) ∧
    Snake.new.checkSelfCollision = some false ∧
    Snake.checkSelfCollision
      { body := [⟨5, 5⟩, ⟨5, 6⟩, ⟨6, 6⟩, ⟨5, 5⟩, ⟨4, 5⟩], direction := Direction.UP,
        nextDirection := Direction.UP } = some true :=
  ⟨Snake.checkSelfCollision_spec Snake.new (by decide), by decide, by decide⟩

/-! ## Fruit: respawn -/

lemma Fruit.respawn_loop_some (snakeBody : List Position) :
    ∀ (rng : List Position) (p : Position) (rest : List Position),
      Fruit.respawn.loop snakeBody rng = some (p, rest) →
      p ∉ snakeBody ∧ ∃ pre, rng = pre ++ p :: rest ∧ ∀ q ∈ pre, q ∈ snakeBody := by
  intro rng
  induction rng with
  | nil => intro p rest h; simp [Fruit.respawn.loop] at h
  | cons d ds ih =>
    intro p rest h
    by_cases hd : d ∈ snakeBody
    · have hf : found snakeBody d = true := (found_iff _ _).2 hd
      simp only [Fruit.respawn.loop, hf, if_true] at h
      obtain ⟨hp, pre, hpre, hall⟩ := ih p rest h
      refine ⟨hp, d :: pre, by simp [hpre], ?_⟩
      intro q hq
      rcases List.mem_cons.1 hq with rfl | hq
      · exact hd
      · exact hall q hq
    · have hf : found snakeBody d = false := by
        rw [Bool.eq_false_iff]; intro hc; exact hd ((found_iff _ _).1 hc)
      simp only [Fruit.respawn.loop, hf, Bool.false_eq_true, if_false, Option.some.injEq,
        Prod.mk.injEq] at h
      obtain ⟨rfl, rfl⟩ := h
      exact ⟨hd, [], rfl, by simp⟩

lemma Fruit.respawn_loop_isSome (snakeBody : List Position) (rng : List Position) :
    (∃ r, Fruit.respawn.loop snakeBody rng = some r) ↔ ∃ p ∈ rng, p ∉ snakeBody := by
  induction rng with
  | nil => simp [Fruit.respawn.loop]
  | cons d ds ih =>
    by_cases hd : d ∈ snakeBody
    · have hf : found snakeBody d = true := (found_iff _ _).2 hd
      simp only [Fruit.respawn.loop, hf, if_true, ih, List.mem_cons]
      constructor
      · rintro ⟨p, hp, hn⟩; exact ⟨p, Or.inr hp, hn⟩
      · rintro ⟨p, hp | hp, hn⟩
        · exact absurd (hp ▸ hd) hn
        · exact ⟨p, hp, hn⟩
    · have hf : found snakeBody d = false := by
        rw [Bool.eq_false_iff]; intro hc; exact hd ((found_iff _ _).1 hc)
      simp only [Fruit.respawn.loop, hf, Bool.false_eq_true, if_false]
      exact ⟨fun _ => ⟨d, List.mem_cons_self _ _, hd⟩, fun _ => ⟨_, rfl⟩⟩

lemma Fruit.respawn_eq_some (f f' : Fruit) (snakeBody : List Position) :
    f.respawn snakeBody = some f' ↔
      Fruit.respawn.loop snakeBody f.rng = some (f'.position, f'.rng) ∧
        f'.gridWidth = f.gridWidth ∧ f'.gridHeight = f.gridHeight := by
  unfold Fruit.respawn
  cases hl : Fruit.respawn.loop snakeBody f.rng with
  | none => simp
  | some r =>
    obtain ⟨p, rest⟩ := r
    obtain ⟨p', w', h', rng'⟩ := f'
    simp only [Option.some.injEq, Fruit.mk.injEq, Prod.mk.injEq]
    constructor
    · rintro ⟨rfl, rfl, rfl, rfl⟩; exact ⟨⟨rfl, rfl⟩, rfl, rfl⟩
    · rintro ⟨⟨rfl, rfl⟩, rfl, rfl⟩; exact ⟨rfl, rfl, rfl, rfl⟩

lemma Fruit.respawn_isSome (f : Fruit) (snakeBody : List Position) :
    (∃ f', f.respawn snakeBody = some f') ↔ ∃ p ∈ f.rng, p ∉ snakeBody := by
  rw [← Fruit.respawn_loop_isSome]
  constructor
  · rintro ⟨f', hf⟩
    exact ⟨_, ((Fruit.respawn_eq_some f f' snakeBody).1 hf).1⟩
  · rintro ⟨⟨p, rest⟩, hr⟩
    exact ⟨{ f with position := p, rng := rest }, by simp [Fruit.respawn, hr]⟩

lemma Fruit.respawn_not_mem (f f' : Fruit) (snakeBody : List Position)
    (h : f.respawn snakeBody = some f') : f'.position ∉ snakeBody :=
  (Fruit.respawn_loop_some snakeBody _ _ _ ((Fruit.respawn_eq_some f f' snakeBody).1 h).1).1

/-- C7: with draws inside the ranges of `xDist` and `yDist`, `Fruit::respawn`
returns exactly when some draw of the sequence is outside `snakeBody`; the
position it leaves is then outside `snakeBody`, inside the grid
(`0 ≤ x < gridWidth`, `0 ≤ y < gridHeight`), and is the first draw of the
sequence that is not in `snakeBody`: every draw before it is in `snakeBody`. -/
theorem Fruit.respawn_spec (f : Fruit) (snakeBody : List Position) (hr : f.rngInRange) :
    ((∃ f', f.respawn snakeBody = some f') ↔ ∃ p ∈ f.rng, p ∉ snakeBody) ∧
    ∀ f', f.respawn snakeBody = some f' →
      f'.position ∉ snakeBody ∧
      (0 ≤ f'.position.x ∧ f'.position.x < f.gridWidth) ∧
      (0 ≤ f'.position.y ∧ f'.position.y < f.gridHeight) ∧
      (∃ pre, f.rng = pre ++ f'.position :: f'.rng ∧ ∀ q ∈ pre, q ∈ snakeBody) ∧
      f'.gridWidth = f.gridWidth ∧ f'.gridHeight = f.gridHeight := by
  refine ⟨Fruit.respawn_isSome f snakeBody, ?_⟩
  intro f' h
  obtain ⟨hl, hw, hh⟩ := (Fruit.respawn_eq_some f f' snakeBody).1 h
  obtain ⟨hp, pre, hpre, hall⟩ := Fruit.respawn_loop_some snakeBody _ _ _ hl
  have hmem : f'.position ∈ f.rng := by rw [hpre]; simp
  obtain ⟨⟨hx0, hx1⟩, hy0, hy1⟩ := hr _ hmem
  exact ⟨hp, ⟨hx0, by omega⟩, ⟨hy0, by omega⟩, ⟨pre, hpre, hall⟩, hw, hh⟩

/-- Witness of C7: against the reset snake, the draws `(19,15)`, `(21,15)`,
`(5,5)`, `(6,6)` put the fruit on `(21,15)`, the first one off the snake. -/
theorem Fruit.respawn_spec_witness :
    (((∃ f', exampleFruit.respawn Snake.new.body = some f') ↔
        ∃ p ∈ exampleFruit.rng, p ∉ Snake.new.body) ∧
      ∀ f', exampleFruit.respawn Snake.new.body = some f' →
        f'.position ∉ Snake.new.body ∧
        (0 ≤ f'.position.x ∧ f'.position.x < exampleFruit.gridWidth) ∧
        (0 ≤ f'.position.y ∧ f'.position.y < exampleFruit.gridHeight) ∧
        (∃ pre, exampleFruit.rng = pre ++ f'.position :: f'.rng ∧
          ∀ q ∈ pre, q ∈ Snake.new.body) ∧
        f'.gridWidth = exampleFruit.gridWidth ∧ f'.gridHeight = exampleFruit.gridHeight) ∧
    exampleFruit.respawn Snake.new.body =
      some { exampleFruit with position := ⟨21, 15⟩, rng := [⟨5, 5⟩, ⟨6, 6⟩] } :=
  ⟨Fruit.respawn_spec exampleFruit Snake.new.body (by decide), by decide⟩

/-! ## Score and speed -/

lemma Game.updateScore_score (g : Game) : g.updateScore.score = g.score + 10 := by
  unfold Game.updateScore
  dsimp only
  split <;> rfl

lemma Game.updateScore_gameSpeed (g : Game) :
    g.updateScore.gameSpeed = if g.gameSpeed > 50 then g.gameSpeed - 5 else g.gameSpeed := by
  unfold Game.updateScore
  dsimp only
  split <;> simp [SPEED_INCREASE]

lemma Game.updateScore_rest (g : Game) :
    g.updateScore.snake = g.snake ∧ g.updateScore.fruit = g.fruit ∧
    g.updateScore.gameState = g.gameState ∧ g.updateScore.lastUpdate = g.lastUpdate ∧
    g.updateScore.windowOpen = g.windowOpen ∧ g.updateScore.audioManager = g.audioManager ∧
    g.updateScore.prevSnakeBody = g.prevSnakeBody := by
  unfold Game.updateScore
  dsimp only
  split <;> simp

/-- C10: from score 0 and speed 150, after `n` calls of `Game::updateScore`
the score is `10 * n` and the speed is `max(50, 150 - 5 * n)`; the score is
non-negative and does not decrease with the next call, the speed does not
increase with the next call and is at least 50. -/
theorem Game.updateScore_iterate (g : Game) (hs : g.score = 0) (hv : g.gameSpeed = BASE_SPEED)
    (n : ℕ) :
    (Game.updateScore^[n] g).score = 10 * (n : Int) ∧
    (Game.updateScore^[n] g).gameSpeed = max (50 : ℚ) (150 - 5 * (n : ℚ)) ∧
    0 ≤ (Game.updateScore^[n] g).score ∧
    (Game.updateScore^[n] g).score ≤ (Game.updateScore^[n + 1] g).score ∧
    (Game.updateScore^[n + 1] g).gameSpeed ≤ (Game.updateScore^[n] g).gameSpeed ∧
    50 ≤ (Game.updateScore^[n] g).gameSpeed := by
  have key : ∀ k : ℕ, (Game.updateScore^[k] g).score = 10 * (k : Int) ∧
      (Game.updateScore^[k] g).gameSpeed = max (50 : ℚ) (150 - 5 * (k : ℚ)) := by
    intro k
    induction k with
    | zero =>
      simp only [Function.iterate_zero, id_eq, hs, hv, BASE_SPEED]
      norm_num
    | succ k ih =>
      rw [Function.iterate_succ_apply', Game.updateScore_score, Game.updateScore_gameSpeed,
        ih.1, ih.2]
      refine ⟨by push_cast; ring, ?_⟩
      push_cast
      rcases le_or_lt (50 : ℚ) (150 - 5 * k - 5) with h | h
      · rw [max_eq_right (by linarith), max_eq_right (by linarith), if_pos (by linarith)]
        ring
      · rcases le_or_lt (150 - 5 * (k : ℚ)) 50 with h2 | h2
        · rw [max_eq_left h2, max_eq_left (by linarith), if_neg (by norm_num)]
        · exfalso
          have h3 : (k : ℚ) < 20 := by linarith
          have h4 : (19 : ℚ) < k := by linarith
          have h5 : k < 20 := by exact_mod_cast h3
          have h6 : 19 < k := by exact_mod_cast h4
          omega
  obtain ⟨hsc, hsp⟩ := key n
  obtain ⟨hsc1, hsp1⟩ := key (n + 1)
  refine ⟨hsc, hsp, ?_, ?_, ?_, ?_⟩
  · rw [hsc]; positivity
  · rw [hsc, hsc1]; push_cast; linarith
  · rw [hsp, hsp1]; push_cast
    exact max_le_max le_rfl (by linarith)
  · rw [hsp]; exact le_max_left _ _

/-- Witness of C10: three fruits from the reset values give score 30 and speed 135. -/
theorem Game.updateScore_iterate_witness :
    (Game.updateScore^[3] exampleGame).score = 10 * ((3 : ℕ) : Int) ∧
    (Game.updateScore^[3] exampleGame).gameSpeed = max (50 : ℚ) (150 - 5 * ((3 : ℕ) : ℚ)) ∧
    0 ≤ (Game.updateScore^[3] exampleGame).score ∧
    (Game.updateScore^[3] exampleGame).score ≤ (Game.updateScore^[3 + 1] exampleGame).score ∧
    (Game.updateScore^[3 + 1] exampleGame).gameSpeed ≤
      (Game.updateScore^[3] exampleGame).gameSpeed ∧
    50 ≤ (Game.updateScore^[3] exampleGame).gameSpeed :=
  Game.updateScore_iterate exampleGame rfl rfl 3

/-! ## Game: one tick of `update` -/

lemma Game.update_playing (w : Bool) (front : Position) (rest : List Position) (d nd : Direction)
    (fruit : Fruit) (am : AudioManager) (score : Int) (speed : ℚ) (lu : Int)
    (prev : List Position) (elapsed : Int)
    (hd : elapsed - lu ≥ milliseconds (floatToInt speed)) :
    Game.update ⟨w, ⟨front :: rest, d, nd⟩, fruit, am, GameState.PLAYING, score, speed, lu, prev⟩
        elapsed =
      if isValidPosition (front + directionVector nd) = false ∨
          front + directionVector nd ∈ (front :: rest).dropLast then
        some ⟨w, ⟨(front + directionVector nd) :: (front :: rest).dropLast, nd, nd⟩, fruit, am,
          GameState.GAME_OVER, score, speed, lu, front :: rest⟩
      else if front + directionVector nd = fruit.position then
        match fruit.respawn ((front + directionVector nd + directionVector nd) ::
            (front + directionVector nd) :: (front :: rest).dropLast) with
        | none => none
        | some fruit' =>
          some ⟨w, ⟨(front + directionVector nd + directionVector nd) ::
              (front + directionVector nd) :: (front :: rest).dropLast, nd, nd⟩, fruit', am,
            GameState.PLAYING, score + 10, if speed > 50 then speed - 5 else speed, elapsed,
            front :: rest⟩
      else
        some ⟨w, ⟨(front + directionVector nd) :: (front :: rest).dropLast, nd, nd⟩, fruit, am,
          GameState.PLAYING, score, speed, elapsed, front :: rest⟩ := by
  have hmove := Snake.move_cons front rest d nd
  simp only [Game.update, Game.tickDue, hd, decide_True, hmove, ne_eq, not_true_eq_false,
    if_false, if_true, Snake.getHead, List.head?_cons, Snake.checkSelfCollision]
  by_cases hv : isValidPosition (front + directionVector nd) = true
  · simp only [hv, Bool.not_true, Bool.false_eq_true, if_false, false_or]
    by_cases hc : front + directionVector nd ∈ (front :: rest).dropLast
    · have := (checkSelfCollision_loop_iff _ _).2 hc
      simp [this, hc]
    · have hl : Snake.checkSelfCollision.loop (front + directionVector nd)
          (front :: rest).dropLast = false := by
        rw [Bool.eq_false_iff]; intro h; exact hc ((checkSelfCollision_loop_iff _ _).1 h)
      simp only [hl, hc, if_false]
      by_cases hf : front + directionVector nd = fruit.position
      · have ho := (Position.opEq_iff _ _).2 hf
        simp only [ho, if_true, Snake.grow, List.head?_cons]
        rw [if_pos hf]
        cases hr : fruit.respawn _ with
        | none => rfl
        | some fruit' =>
          simp only [Game.updateScore, SPEED_INCREASE]
          by_cases h50 : speed > 50 <;> simp [h50]
      · have ho : (front + directionVector nd).opEq fruit.position = false := by
          rw [Bool.eq_false_iff]; intro h; exact hf ((Position.opEq_iff _ _).1 h)
        simp [ho, hf]
  · have hv2 : isValidPosition (front + directionVector nd) = false := by simpa using hv
    simp [hv2]

lemma isValidPosition_iff (pos : Position) :
    isValidPosition pos = true ↔ 0 ≤ pos.x ∧ pos.x < 40 ∧ 0 ≤ pos.y ∧ pos.y < 30 := by
  simp [isValidPosition, GRID_WIDTH, GRID_HEIGHT, and_assoc]

/-- C1: in a `PLAYING` state with a due tick, let `newHead` be the old head plus
the unit vector of the pending direction. If `newHead` is outside
`0 ≤ x < 40`, `0 ≤ y < 30` or equals another segment of the moved body (the old
body without its last segment), `Game::update` returns in `GAME_OVER` with the
score, the speed and the fruit unchanged. Otherwise every state it returns is
`PLAYING`, and it does return when no fruit is eaten or the generator still
holds a free cell. -/
theorem Game.update_collision (g : Game) (elapsed : Int) (head newHead : Position)
    (hp : g.gameState = GameState.PLAYING) (hd : g.tickDue elapsed = true)
    (hh : g.snake.body.head? = some head)
    (hn : newHead = head + directionVector g.snake.nextDirection) :
    ((¬ (0 ≤ newHead.x ∧ newHead.x < 40 ∧ 0 ≤ newHead.y ∧ newHead.y < 30) ∨
        newHead ∈ g.snake.body.dropLast) →
      ∃ g', g.update elapsed = some g' ∧ g'.gameState = GameState.GAME_OVER ∧
        g'.score = g.score ∧ g'.gameSpeed = g.gameSpeed ∧ g'.fruit = g.fruit ∧
        g'.snake.body = newHead :: g.snake.body.dropLast) ∧
    (¬ (¬ (0 ≤ newHead.x ∧ newHead.x < 40 ∧ 0 ≤ newHead.y ∧ newHead.y < 30) ∨
        newHead ∈ g.snake.body.dropLast) →
      (∀ g', g.update elapsed = some g' → g'.gameState = GameState.PLAYING) ∧
      ((newHead ≠ g.fruit.position ∨
          ∃ p ∈ g.fruit.rng,
            p ∉ (newHead + directionVector g.snake.nextDirection) :: newHead ::
              g.snake.body.dropLast) →
        ∃ g', g.update elapsed = some g')) := by
  obtain ⟨w, ⟨body, d, nd⟩, fruit, am, gs, score, speed, lu, prev⟩ := g
  cases body with
  | nil => simp at hh
  | cons front rest =>
    simp only [List.head?_cons, Option.some.injEq] at hh
    subst hh
    simp only at hp hn
    subst hp hn
    have hd' : elapsed - lu ≥ milliseconds (floatToInt speed) := by
      simpa [Game.tickDue] using hd
    rw [Game.update_playing w front rest d nd fruit am score speed lu prev elapsed hd']
    simp only [← isValidPosition_iff, Bool.not_eq_true]
    constructor
    · intro hfatal
      rw [if_pos hfatal]
      exact ⟨_, rfl, rfl, rfl, rfl, rfl, rfl⟩
    · intro hsafe
      rw [if_neg hsafe]
      by_cases hf : front + directionVector nd = fruit.position
      · rw [if_pos hf]
        constructor
        · intro g' hg'
          cases hr : fruit.respawn ((front + directionVector nd + directionVector nd) ::
              (front + directionVector nd) :: (front :: rest).dropLast) with
          | none => rw [hr] at hg'; simp at hg'
          | some fruit' =>
            rw [hr] at hg'
            simp only [Option.some.injEq] at hg'
            rw [← hg']
        · rintro (hne | hfree)
          · exact absurd hf hne
          · obtain ⟨fruit', hr⟩ := (Fruit.respawn_isSome fruit _).2 hfree
            rw [hr]
            exact ⟨_, rfl⟩
      · rw [if_neg hf]
        constructor
        · intro g' hg'
          simp only [Option.some.injEq] at hg'
          rw [← hg']
        · intro _
          exact ⟨_, rfl⟩

/-- Witness of C1: head on `(0,15)` facing `LEFT`; the tick moves the head to
`(-1,15)` and the state goes from `PLAYING` to `GAME_OVER`. -/
theorem Game.update_collision_witness :
    (((¬ (0 ≤ (⟨-1, 15⟩ : Position).x ∧ (⟨-1, 15⟩ : Position).x < 40 ∧
            0 ≤ (⟨-1, 15⟩ : Position).y ∧ (⟨-1, 15⟩ : Position).y < 30) ∨
          (⟨-1, 15⟩ : Position) ∈ wallGame.snake.body.dropLast) →
        ∃ g', wallGame.update 150000 = some g' ∧ g'.gameState = GameState.GAME_OVER ∧
          g'.score = wallGame.score ∧ g'.gameSpeed = wallGame.gameSpeed ∧
          g'.fruit = wallGame.fruit ∧
          g'.snake.body = ⟨-1, 15⟩ :: wallGame.snake.body.dropLast) ∧
      (¬ (¬ (0 ≤ (⟨-1, 15⟩ : Position).x ∧ (⟨-1, 15⟩ : Position).x < 40 ∧
            0 ≤ (⟨-1, 15⟩ : Position).y ∧ (⟨-1, 15⟩ : Position).y < 30) ∨
          (⟨-1, 15⟩ : Position) ∈ wallGame.snake.body.dropLast) →
        (∀ g', wallGame.update 150000 = some g' → g'.gameState = GameState.PLAYING) ∧
        (((⟨-1, 15⟩ : Position) ≠ wallGame.fruit.position ∨
            ∃ p ∈ wallGame.fruit.rng,
              p ∉ ((⟨-1, 15⟩ : Position) + directionVector wallGame.snake.nextDirection) ::
                ⟨-1, 15⟩ :: wallGame.snake.body.dropLast) →
          ∃ g', wallGame.update 150000 = some g'))) ∧
    wallGame.gameState = GameState.PLAYING ∧
    isValidPosition ⟨-1, 15⟩ = false ∧
    (wallGame.update 150000).map (fun g' => (g'.gameState, g'.snake.body)) =
      some (GameState.GAME_OVER, [⟨-1, 15⟩, ⟨0, 15⟩, ⟨1, 15⟩]) :=
  ⟨Game.update_collision wallGame 150000 ⟨0, 15⟩ ⟨-1, 15⟩ (by decide) (by decide) (by decide)
      (by decide),
    by decide, by decide, by decide⟩

/-- Counterexample to C2: `slowestGame` is `PLAYING`, its tick is due, and the
moved head `(21,15)` is inside the grid, on no other segment and on the fruit;
`Game::update` returns with the speed still 50, not lowered by 5. -/
theorem Game.update_eat_speed_not_lowered :
    slowestGame.gameState = GameState.PLAYING ∧ slowestGame.tickDue 150000 = true ∧
    slowestGame.snake.body.head? = some ⟨20, 15⟩ ∧
    (⟨20, 15⟩ : Position) + directionVector slowestGame.snake.nextDirection = ⟨21, 15⟩ ∧
    isValidPosition ⟨21, 15⟩ = true ∧
    (⟨21, 15⟩ : Position) ∉ slowestGame.snake.body.dropLast ∧
    slowestGame.fruit.position = ⟨21, 15⟩ ∧
    ∃ g', slowestGame.update 150000 = some g' ∧ slowestGame.gameSpeed = 50 ∧
      g'.gameSpeed = 50 ∧ g'.gameSpeed ≠ slowestGame.gameSpeed - 5 := by
  refine ⟨by decide, by decide, by decide, by decide, by decide, by decide, by decide, ?_⟩
  have hu := Game.update_playing true ⟨20, 15⟩ [⟨19, 15⟩, ⟨18, 15⟩] Direction.RIGHT
    Direction.RIGHT exampleFruit { soundEnabled := true, musicEnabled := true } 200 50 0 []
    150000 (by decide)
  have hr : exampleFruit.respawn
      (((⟨20, 15⟩ : Position) + directionVector Direction.RIGHT +
          directionVector Direction.RIGHT) ::
        ((⟨20, 15⟩ : Position) + directionVector Direction.RIGHT) ::
          [(⟨20, 15⟩ : Position), ⟨19, 15⟩, ⟨18, 15⟩].dropLast) =
      some { exampleFruit with position := ⟨5, 5⟩, rng := [⟨6, 6⟩] } := by decide
  rw [if_neg (by decide), if_pos (by decide), hr] at hu
  refine ⟨_, hu, rfl, ?_, ?_⟩
  · norm_num
  · norm_num [slowestGame]

/-- C2, amended: in a `PLAYING` state with a due tick whose moved head
`newHead` is inside the grid, on no other segment and on the fruit,
`Game::update` returns exactly when the generator still holds a cell outside
the grown body. The state it returns has 10 more score, a speed lowered by 5
if it was above 50 and unchanged otherwise, a body one segment longer than
before the tick (a further head in front of the moved body), and a fruit
position that is not in the new body. -/
theorem Game.update_eat (g : Game) (elapsed : Int) (head newHead : Position)
    (hp : g.gameState = GameState.PLAYING) (hd : g.tickDue elapsed = true)
    (hh : g.snake.body.head? = some head)
    (hn : newHead = head + directionVector g.snake.nextDirection)
    (hv : 0 ≤ newHead.x ∧ newHead.x < 40 ∧ 0 ≤ newHead.y ∧ newHead.y < 30)
    (hs : newHead ∉ g.snake.body.dropLast)
    (hf : newHead = g.fruit.position) :
    ((∃ g', g.update elapsed = some g') ↔
      ∃ p ∈ g.fruit.rng,
        p ∉ (newHead + directionVector g.snake.nextDirection) :: newHead ::
          g.snake.body.dropLast) ∧
    ∀ g', g.update elapsed = some g' →
      g'.score = g.score + 10 ∧
      g'.gameSpeed = (if g.gameSpeed > 50 then g.gameSpeed - 5 else g.gameSpeed) ∧
      g'.snake.body.length = g.snake.body.length + 1 ∧
      g'.snake.body =
        (newHead + directionVector g.snake.nextDirection) :: newHead ::
          g.snake.body.dropLast ∧
      g'.fruit.position ∉ g'.snake.body ∧
      g'.gameState = GameState.PLAYING ∧ g'.lastUpdate = elapsed := by
  obtain ⟨w, ⟨body, d, nd⟩, fruit, am, gs, score, speed, lu, prev⟩ := g
  cases body with
  | nil => simp at hh
  | cons front rest =>
    simp only [List.head?_cons, Option.some.injEq] at hh
    subst hh
    simp only at hp hn hs hf
    subst hp hn
    have hd' : elapsed - lu ≥ milliseconds (floatToInt speed) := by
      simpa [Game.tickDue] using hd
    have hvalid : ¬ (isValidPosition (front + directionVector nd) = false ∨
        front + directionVector nd ∈ (front :: rest).dropLast) := by
      rintro (h | h)
      · rw [(isValidPosition_iff _).2 hv] at h; exact Bool.noConfusion h
      · exact hs h
    rw [Game.update_playing w front rest d nd fruit am score speed lu prev elapsed hd',
      if_neg hvalid, if_pos hf]
    constructor
    · rw [← Fruit.respawn_isSome]
      constructor
      · rintro ⟨g', hg'⟩
        cases hr : fruit.respawn ((front + directionVector nd + directionVector nd) ::
            (front + directionVector nd) :: (front :: rest).dropLast) with
        | none => rw [hr] at hg'; simp at hg'
        | some fruit' => exact ⟨fruit', rfl⟩
      · rintro ⟨fruit', hr⟩
        rw [hr]
        exact ⟨_, rfl⟩
    · intro g' hg'
      cases hr : fruit.respawn ((front + directionVector nd + directionVector nd) ::
          (front + directionVector nd) :: (front :: rest).dropLast) with
      | none => rw [hr] at hg'; simp at hg'
      | some fruit' =>
        rw [hr] at hg'
        simp only [Option.some.injEq] at hg'
        subst hg'
        refine ⟨rfl, rfl, ?_, rfl, Fruit.respawn_not_mem _ _ _ hr, rfl, rfl⟩
        simp

/-- Witness of C2: from the reset values with the fruit on `(21,15)`, one tick
gives score 10, speed 145 and a body of length 4. -/
theorem Game.update_eat_witness :
    (((∃ g', exampleGame.update 150000 = some g') ↔
        ∃ p ∈ exampleGame.fruit.rng,
          p ∉ ((⟨21, 15⟩ : Position) + directionVector exampleGame.snake.nextDirection) ::
            ⟨21, 15⟩ :: exampleGame.snake.body.dropLast) ∧
      ∀ g', exampleGame.update 150000 = some g' →
        g'.score = exampleGame.score + 10 ∧
        g'.gameSpeed =
          (if exampleGame.gameSpeed > 50 then exampleGame.gameSpeed - 5
            else exampleGame.gameSpeed) ∧
        g'.snake.body.length = exampleGame.snake.body.length + 1 ∧
        g'.snake.body =
          ((⟨21, 15⟩ : Position) + directionVector exampleGame.snake.nextDirection) ::
            ⟨21, 15⟩ :: exampleGame.snake.body.dropLast ∧
        g'.fruit.position ∉ g'.snake.body ∧
        g'.gameState = GameState.PLAYING ∧ g'.lastUpdate = 150000) ∧
    (exampleGame.update 150000).map
        (fun g' => (g'.score, g'.gameSpeed, g'.snake.body.length, g'.fruit.position)) =
      some (10, 145, 4, ⟨5, 5⟩) :=
  ⟨Game.update_eat exampleGame 150000 ⟨20, 15⟩ ⟨21, 15⟩ (by decide) (by decide) (by decide)
      (by decide) (by decide) (by decide) (by decide),
    by decide!⟩

/-! ## Game: the state machine -/

lemma Game.resetGame_eq_some (g r : Game) :
    g.resetGame = some r ↔
      ∃ fruit, g.fruit.respawn g.snake.reset.body = some fruit ∧
        r = { g with snake := g.snake.reset, fruit := fruit, score := 0,
                     gameSpeed := BASE_SPEED, lastUpdate := 0 } := by
  unfold Game.resetGame
  cases hr : g.fruit.respawn g.snake.reset.body with
  | none => simp [hr]
  | some fruit => simp [hr, eq_comm]

lemma Game.handleEvent_space (g : Game)
    (hs : g.gameState = GameState.MENU ∨ g.gameState = GameState.GAME_OVER) :
    g.handleEvent (Event.KeyPressed Key.Space) =
      g.resetGame.map (fun r => { r with gameState := GameState.PLAYING }) := by
  simp only [Game.handleEvent, hs, if_true]
  cases g.resetGame <;> rfl

lemma Game.handleEvent_other (g : Game) (e : Event)
    (h1 : ¬ (e = Event.KeyPressed Key.Space ∧
      (g.gameState = GameState.MENU ∨ g.gameState = GameState.GAME_OVER)))
    (h2 : ¬ (e = Event.KeyPressed Key.P ∧
      (g.gameState = GameState.PLAYING ∨ g.gameState = GameState.PAUSED))) :
    ∃ g', g.handleEvent e = some g' ∧ g'.gameState = g.gameState ∧
      (g.gameState ≠ GameState.PLAYING → g'.snake = g.snake) ∧
      g'.fruit = g.fruit ∧ g'.score = g.score ∧ g'.gameSpeed = g.gameSpeed ∧
      g'.lastUpdate = g.lastUpdate := by
  cases e with
  | Closed => exact ⟨_, rfl, rfl, fun _ => rfl, rfl, rfl, rfl, rfl⟩
  | Other => exact ⟨_, rfl, rfl, fun _ => rfl, rfl, rfl, rfl, rfl⟩
  | KeyPressed code =>
    cases code with
    | Space =>
      have h : ¬ (g.gameState = GameState.MENU ∨ g.gameState = GameState.GAME_OVER) :=
        fun h => h1 ⟨rfl, h⟩
      simp only [Game.handleEvent, h, if_false]
      exact ⟨_, rfl, rfl, fun _ => rfl, rfl, rfl, rfl, rfl⟩
    | P =>
      have h : ¬ (g.gameState = GameState.PLAYING ∨ g.gameState = GameState.PAUSED) :=
        fun h => h2 ⟨rfl, h⟩
      rw [not_or] at h
      simp only [Game.handleEvent, h.1, h.2, if_false]
      exact ⟨_, rfl, rfl, fun _ => rfl, rfl, rfl, rfl, rfl⟩
    | Up | Down | Left | Right =>
      by_cases hp : g.gameState = GameState.PLAYING
      · simp only [Game.handleEvent, hp, if_true]
        exact ⟨_, rfl, rfl, fun h => absurd rfl h, rfl, rfl, rfl, rfl⟩
      · simp only [Game.handleEvent, hp, if_false]
        exact ⟨_, rfl, rfl, fun _ => rfl, rfl, rfl, rfl, rfl⟩
    | Escape | S | M | F | Other =>
      exact ⟨_, rfl, rfl, fun _ => rfl, rfl, rfl, rfl, rfl⟩

lemma Game.update_not_playing (g : Game) (elapsed : Int)
    (h : g.gameState ≠ GameState.PLAYING) : g.update elapsed = some g := by
  simp [Game.update, h]

lemma Game.steps_menu (inputs : List Input) :
    ∀ g : Game, g.gameState = GameState.MENU →
      (∀ i ∈ inputs, i ≠ Input.event (Event.KeyPressed Key.Space)) →
      ∃ g', g.steps inputs = some g' ∧ g'.gameState = GameState.MENU ∧ g'.snake = g.snake ∧
        g'.fruit = g.fruit ∧ g'.score = g.score ∧ g'.gameSpeed = g.gameSpeed := by
  induction inputs with
  | nil => intro g hm _; exact ⟨g, rfl, hm, rfl, rfl, rfl, rfl⟩
  | cons i rest ih =>
    intro g hm hno
    have hrest : ∀ j ∈ rest, j ≠ Input.event (Event.KeyPressed Key.Space) :=
      fun j hj => hno j (List.mem_cons_of_mem _ hj)
    cases i with
    | poll elapsed =>
      have hu : g.update elapsed = some g := Game.update_not_playing g elapsed (by rw [hm]; decide)
      simp only [Game.steps, Game.step, hu]
      exact ih g hm hrest
    | event e =>
      have hne : e ≠ Event.KeyPressed Key.Space := by
        intro he; exact hno _ (List.mem_cons_self _ _) (by rw [he])
      obtain ⟨g1, hg1, hs1, hsn, hfr, hsc, hsp, _⟩ := Game.handleEvent_other g e
        (fun h => hne h.1) (by rw [hm]; rintro ⟨_, h | h⟩ <;> exact absurd h (by decide))
      simp only [Game.steps, Game.step, hg1]
      obtain ⟨g', hg', hs', hsn', hfr', hsc', hsp'⟩ := ih g1 (hs1.trans hm) hrest
      refine ⟨g', hg', hs', ?_, ?_, ?_, ?_⟩
      · rw [hsn', hsn (by rw [hm]; decide)]
      · rw [hfr', hfr]
      · rw [hsc', hsc]
      · rw [hsp', hsp]


lemma Game.handleEvents_eq_steps (events : List Event) :
    ∀ g : Game, g.handleEvents events = g.steps (events.map Input.event) := by
  induction events with
  | nil => intro g; rfl
  | cons e rest ih =>
    intro g
    simp only [Game.handleEvents, List.map_cons, Game.steps, Game.step]
    cases g.handleEvent e with
    | none => rfl
    | some g1 => exact ih g1

/-- C8: the transition table of `Game::handleEvents` and `Game::update`.
Space in `MENU` or `GAME_OVER` runs `resetGame` and then sets `PLAYING` (it
returns exactly when the generator holds a cell off the reset snake). `P` maps
`PLAYING` to `PAUSED` and `PAUSED` to `PLAYING`. Every other event in every
state, and `update` in every state but `PLAYING`, leaves `gameState` as it is.
From `MENU`, no sequence of events and `update` calls without a Space key
leaves `MENU`, and the arrow keys outside `PLAYING` change nothing at all. -/
theorem Game.transition_table :
    (∀ g : Game, g.gameState = GameState.MENU ∨ g.gameState = GameState.GAME_OVER →
      g.handleEvent (Event.KeyPressed Key.Space) =
        g.resetGame.map (fun r => { r with gameState := GameState.PLAYING }) ∧
      ((∃ g', g.handleEvent (Event.KeyPressed Key.Space) = some g') ↔
        ∃ p ∈ g.fruit.rng, p ∉ g.snake.reset.body) ∧
      ∀ g', g.handleEvent (Event.KeyPressed Key.Space) = some g' →
        g'.gameState = GameState.PLAYING ∧ g'.snake = g.snake.reset ∧ g'.score = 0 ∧
        g'.gameSpeed = BASE_SPEED ∧ g'.lastUpdate = 0 ∧
        g'.fruit.position ∉ g'.snake.body) ∧
    (∀ g : Game, g.gameState = GameState.PLAYING →
      g.handleEvent (Event.KeyPressed Key.P) = some { g with gameState := GameState.PAUSED }) ∧
    (∀ g : Game, g.gameState = GameState.PAUSED →
      g.handleEvent (Event.KeyPressed Key.P) = some { g with gameState := GameState.PLAYING }) ∧
    (∀ (g : Game) (e : Event),
      ¬ (e = Event.KeyPressed Key.Space ∧
        (g.gameState = GameState.MENU ∨ g.gameState = GameState.GAME_OVER)) →
      ¬ (e = Event.KeyPressed Key.P ∧
        (g.gameState = GameState.PLAYING ∨ g.gameState = GameState.PAUSED)) →
      ∃ g', g.handleEvent e = some g' ∧ g'.gameState = g.gameState) ∧
    (∀ (g : Game) (elapsed : Int), g.gameState ≠ GameState.PLAYING →
      g.update elapsed = some g) ∧
    (∀ (g : Game) (inputs : List Input), g.gameState = GameState.MENU →
      (∀ i ∈ inputs, i ≠ Input.event (Event.KeyPressed Key.Space)) →
      ∃ g', g.steps inputs = some g' ∧ g'.gameState = GameState.MENU ∧ g'.snake = g.snake) ∧
    (∀ (g : Game) (events : List Event), g.gameState = GameState.MENU →
      Event.KeyPressed Key.Space ∉ events →
      ∃ g', g.handleEvents events = some g' ∧ g'.gameState = GameState.MENU ∧
        g'.snake = g.snake) ∧
    (∀ (g : Game) (code : Key), g.gameState ≠ GameState.PLAYING →
      code = Key.Up ∨ code = Key.Down ∨ code = Key.Left ∨ code = Key.Right →
      g.handleEvent (Event.KeyPressed code) = some g) := by
  refine ⟨?_, ?_, ?_, ?_, Game.update_not_playing, ?_, ?_, ?_⟩
  · intro g hs
    have he := Game.handleEvent_space g hs
    refine ⟨he, ?_, ?_⟩
    · rw [he, ← Fruit.respawn_isSome]
      constructor
      · rintro ⟨g', hg'⟩
        obtain ⟨r, hr, -⟩ := Option.map_eq_some'.1 hg'
        obtain ⟨fruit, hf, -⟩ := (Game.resetGame_eq_some g r).1 hr
        exact ⟨fruit, hf⟩
      · rintro ⟨fruit, hf⟩
        have hr := (Game.resetGame_eq_some g _).2 ⟨fruit, hf, rfl⟩
        rw [hr]
        exact ⟨_, rfl⟩
    · intro g' hg'
      rw [he] at hg'
      obtain ⟨r, hr, rfl⟩ := Option.map_eq_some'.1 hg'
      obtain ⟨fruit, hf, rfl⟩ := (Game.resetGame_eq_some g r).1 hr
      exact ⟨rfl, rfl, rfl, rfl, rfl, Fruit.respawn_not_mem _ _ _ hf⟩
  · intro g hp
    simp [Game.handleEvent, hp]
  · intro g hp
    simp [Game.handleEvent, hp]
  · intro g e h1 h2
    obtain ⟨g', hg', hs, -⟩ := Game.handleEvent_other g e h1 h2
    exact ⟨g', hg', hs⟩
  · intro g inputs hm hno
    obtain ⟨g', hg', hs, hsn, -⟩ := Game.steps_menu inputs g hm hno
    exact ⟨g', hg', hs, hsn⟩
  · intro g events hm hno
    rw [Game.handleEvents_eq_steps]
    have hno' : ∀ i ∈ events.map Input.event, i ≠ Input.event (Event.KeyPressed Key.Space) := by
      intro i hi
      obtain ⟨e, he, rfl⟩ := List.mem_map.1 hi
      intro h
      rw [Input.event.injEq] at h
      exact hno (h ▸ he)
    obtain ⟨g', hg', hs, hsn, -⟩ := Game.steps_menu _ g hm hno'
    exact ⟨g', hg', hs, hsn⟩
  · intro g code hp hc
    rcases hc with rfl | rfl | rfl | rfl <;> simp [Game.handleEvent, hp]

/-! ## Snake: straight runs and reversals -/

lemma Position.add_def (p q : Position) : p + q = ⟨p.x + q.x, p.y + q.y⟩ := rfl

lemma Snake.moves_line (nd : Direction) :
    ∀ (k : Nat) (a b c : Position) (d : Direction),
      Snake.moves (k + 2) { body := [a, b, c], direction := d, nextDirection := nd } =
        some { body :=
                [⟨a.x + (k + 2) * (directionVector nd).x, a.y + (k + 2) * (directionVector nd).y⟩,
                 ⟨a.x + (k + 1) * (directionVector nd).x, a.y + (k + 1) * (directionVector nd).y⟩,
                 ⟨a.x + k * (directionVector nd).x, a.y + k * (directionVector nd).y⟩],
               direction := nd, nextDirection := nd } := by
  intro k
  induction k with
  | zero =>
    intro a b c d
    obtain ⟨ax, ay⟩ := a
    simp only [Snake.moves, Snake.move_cons, List.dropLast]
    cases nd <;> simp only [Position.add_def, directionVector] <;> norm_num <;> omega
  | succ k ih =>
    intro a b c d
    obtain ⟨ax, ay⟩ := a
    rw [Snake.moves, Snake.move_cons]
    simp only [List.dropLast]
    rw [ih]
    cases nd <;> simp only [Position.add_def, directionVector] <;> push_cast <;> norm_num <;>
      refine ⟨?_, ?_, ?_⟩ <;> ring

lemma Snake.line_checkSelfCollision (nd : Direction) (a : Position) (k : Nat) (d : Direction) :
    Snake.checkSelfCollision
      { body :=
          [⟨a.x + (k + 2) * (directionVector nd).x, a.y + (k + 2) * (directionVector nd).y⟩,
           ⟨a.x + (k + 1) * (directionVector nd).x, a.y + (k + 1) * (directionVector nd).y⟩,
           ⟨a.x + k * (directionVector nd).x, a.y + k * (directionVector nd).y⟩],
        direction := d, nextDirection := nd } = some false := by
  cases nd <;>
    simp [Snake.checkSelfCollision, Snake.checkSelfCollision.loop, Position.opEq,
      directionVector]

lemma Snake.moves_reset_line (d nd : Direction) (hnd : nd ≠ Direction.LEFT) (k : Nat)
    (hk : 1 ≤ k) :
    ∃ s', Snake.moves k
        { body := [⟨20, 15⟩, ⟨19, 15⟩, ⟨18, 15⟩], direction := d, nextDirection := nd } =
          some s' ∧
      s'.checkSelfCollision = some false ∧ s'.direction = nd ∧ s'.body.length = 3 := by
  obtain ⟨j, rfl⟩ : ∃ j, k = j + 1 := ⟨k - 1, by omega⟩
  cases j with
  | zero =>
    simp only [Snake.moves, Snake.move_cons]
    refine ⟨_, rfl, ?_, rfl, rfl⟩
    cases nd
    · decide
    · decide
    · exact absurd rfl hnd
    · decide
  | succ j =>
    rw [Snake.moves_line nd j _ _ _ d]
    exact ⟨_, rfl, Snake.line_checkSelfCollision nd _ j nd, rfl, rfl⟩

/-- C11: on the reset snake, after `setDirection(d)` for any direction `d` (an
accepted `d` becomes the heading, a refused one leaves the heading `RIGHT`),
or with no direction change at all, `k ≥ 1` consecutive calls of `Snake::move`
all return, leave a body of 3 segments headed that way, and
`checkSelfCollision` then returns `false`. -/
theorem Snake.straight_line_no_collision (s0 : Snake) (d : Direction) (k : Nat) (hk : 1 ≤ k) :
    (∃ s', (s0.reset.setDirection d).moves k = some s' ∧
      s'.checkSelfCollision = some false ∧
      s'.direction = (s0.reset.setDirection d).nextDirection ∧ s'.body.length = 3) ∧
    (∃ s', s0.reset.moves k = some s' ∧
      s'.checkSelfCollision = some false ∧
      s'.direction = Direction.RIGHT ∧ s'.body.length = 3) ∧
    (d ≠ s0.reset.direction.reverse → (s0.reset.setDirection d).nextDirection = d) ∧
    (d = s0.reset.direction.reverse →
      (s0.reset.setDirection d).nextDirection = Direction.RIGHT) := by
  refine ⟨?_, Snake.moves_reset_line _ _ (by decide) k hk, ?_, ?_⟩
  · cases d
    · exact Snake.moves_reset_line Direction.RIGHT Direction.UP (by decide) k hk
    · exact Snake.moves_reset_line Direction.RIGHT Direction.DOWN (by decide) k hk
    · exact Snake.moves_reset_line Direction.RIGHT Direction.RIGHT (by decide) k hk
    · exact Snake.moves_reset_line Direction.RIGHT Direction.RIGHT (by decide) k hk
  · cases d <;> simp [Snake.reset, Snake.setDirection, Direction.reverse]
  · cases d <;> simp [Snake.reset, Snake.setDirection, Direction.reverse]

/-- Witness of C11: the reset snake turned `UP`, after one move and after five. -/
theorem Snake.straight_line_no_collision_witness :
    ((∃ s', (Snake.new.reset.setDirection Direction.UP).moves 5 = some s' ∧
        s'.checkSelfCollision = some false ∧
        s'.direction = (Snake.new.reset.setDirection Direction.UP).nextDirection ∧
        s'.body.length = 3) ∧
      (∃ s', Snake.new.reset.moves 5 = some s' ∧
        s'.checkSelfCollision = some false ∧
        s'.direction = Direction.RIGHT ∧ s'.body.length = 3) ∧
      (Direction.UP ≠ Snake.new.reset.direction.reverse →
        (Snake.new.reset.setDirection Direction.UP).nextDirection = Direction.UP) ∧
      (Direction.UP = Snake.new.reset.direction.reverse →
        (Snake.new.reset.setDirection Direction.UP).nextDirection = Direction.RIGHT)) ∧
    (Snake.new.reset.setDirection Direction.UP).moves 1 =
      some { body := [⟨20, 14⟩, ⟨20, 15⟩, ⟨19, 15⟩], direction := Direction.UP,
             nextDirection := Direction.UP } ∧
    (Snake.new.reset.setDirection Direction.UP).moves 5 =
      some { body := [⟨20, 10⟩, ⟨20, 11⟩, ⟨20, 12⟩], direction := Direction.UP,
             nextDirection := Direction.UP } :=
  ⟨Snake.straight_line_no_collision Snake.new Direction.UP 5 (by decide), by decide, by decide⟩


lemma Direction.ne_reverse (d : Direction) : d ≠ d.reverse := by
  cases d <;> decide

lemma directionVector_step_ne (behind : Position) (d nd : Direction) (h : nd ≠ d.reverse) :
    behind + directionVector d + directionVector nd ≠ behind := by
  obtain ⟨bx, by'⟩ := behind
  cases d <;> cases nd <;>
    first
    | exact absurd rfl h
    | (simp only [Position.add_def, directionVector, ne_eq, Position.mk.injEq]; omega)

lemma Snake.steady_reset (s0 : Snake) : s0.reset.Steady := by
  have h : Snake.new.Steady :=
    ⟨⟨⟨20, 15⟩, ⟨19, 15⟩, [⟨18, 15⟩], rfl, by decide⟩, by decide⟩
  exact h

lemma Snake.setDirection_nextDirection (s : Snake) (d : Direction) :
    (s.setDirection d).nextDirection = d ∧ d ≠ s.direction.reverse ∨
      (s.setDirection d).nextDirection = s.nextDirection := by
  obtain ⟨body, dir, nd⟩ := s
  cases d <;> cases dir <;> simp [Snake.setDirection, Direction.reverse]

lemma Snake.setDirection_body (s : Snake) (d : Direction) :
    (s.setDirection d).body = s.body ∧ (s.setDirection d).direction = s.direction := by
  obtain ⟨body, dir, nd⟩ := s
  cases d <;> cases dir <;> simp [Snake.setDirection]

lemma Snake.steady_setDirection (s : Snake) (d : Direction) (h : s.Steady) :
    (s.setDirection d).Steady := by
  obtain ⟨hb, hd⟩ := Snake.setDirection_body s d
  unfold Snake.Steady
  rw [hb, hd]
  refine ⟨h.1, ?_⟩
  rcases Snake.setDirection_nextDirection s d with ⟨h1, h2⟩ | h1
  · rw [h1]; exact h2
  · rw [h1]; exact h.2

lemma Snake.steady_setDirections (ds : List Direction) :
    ∀ s : Snake, s.Steady →
      (s.setDirections ds).Steady ∧ (s.setDirections ds).body = s.body ∧
        (s.setDirections ds).direction = s.direction := by
  induction ds with
  | nil => intro s h; exact ⟨h, rfl, rfl⟩
  | cons d rest ih =>
    intro s h
    obtain ⟨h1, h2, h3⟩ := ih (s.setDirection d) (Snake.steady_setDirection s d h)
    obtain ⟨hb, hd⟩ := Snake.setDirection_body s d
    exact ⟨h1, h2.trans hb, h3.trans hd⟩

lemma Snake.steady_move (s : Snake) (h : s.Steady) :
    ∃ s' front behind rest, s.move = some s' ∧ s.body = front :: behind :: rest ∧
      s'.body = (front + directionVector s.nextDirection) :: front :: (behind :: rest).dropLast ∧
      s'.direction = s.nextDirection ∧ s'.nextDirection = s.nextDirection ∧
      front + directionVector s.nextDirection ≠ behind ∧ s'.Steady := by
  obtain ⟨body, d, nd⟩ := s
  obtain ⟨⟨front, behind, rest, hb, hf⟩, hn⟩ := h
  simp only at hb hf hn
  subst hb
  refine ⟨_, front, behind, rest, Snake.move_cons front (behind :: rest) d nd, rfl, ?_, rfl, rfl,
    ?_, ?_⟩
  · simp
  · rw [hf]; exact directionVector_step_ne behind d nd hn
  · refine ⟨⟨front + directionVector nd, front, (behind :: rest).dropLast, by simp, rfl⟩, ?_⟩
    exact Direction.ne_reverse nd

lemma Snake.steady_grow (s : Snake) (h : s.Steady) :
    ∃ s', s.grow = some s' ∧ s'.Steady := by
  obtain ⟨body, d, nd⟩ := s
  obtain ⟨⟨front, behind, rest, hb, hf⟩, hn⟩ := h
  simp only at hb hf hn
  subst hb
  exact ⟨_, Snake.grow_cons front (behind :: rest) d nd,
    ⟨front + directionVector d, front, behind :: rest, rfl, rfl⟩, hn⟩

lemma Snake.steady_calls (calls : List SnakeCall) :
    ∀ s : Snake, s.Steady → ∃ s', s.calls calls = some s' ∧ s'.Steady := by
  induction calls with
  | nil => intro s h; exact ⟨s, rfl, h⟩
  | cons c rest ih =>
    intro s h
    cases c with
    | setDirection d =>
      simp only [Snake.calls, Snake.call]
      exact ih _ (Snake.steady_setDirection s d h)
    | move =>
      obtain ⟨s1, _, _, _, hm, _, _, _, _, _, hs1⟩ := Snake.steady_move s h
      simp only [Snake.calls, Snake.call, hm]
      exact ih s1 hs1
    | grow =>
      obtain ⟨s1, hg, hs1⟩ := Snake.steady_grow s h
      simp only [Snake.calls, Snake.call, hg]
      exact ih s1 hs1

/-- C12: every sequence of `setDirection`, `move` and `grow` calls on the reset
snake returns, and in the snake `s` it reaches `nextDirection` is not the
reverse of `direction`. Whatever `setDirection` calls follow, the next `move`
returns, commits a direction that is not the reverse of the direction committed
before, and puts the new head on a cell other than the segment directly behind
the old head. -/
theorem Snake.no_reversal (s0 : Snake) (calls : List SnakeCall) :
    ∃ s, s0.reset.calls calls = some s ∧ s.nextDirection ≠ s.direction.reverse ∧
      ∀ ds : List Direction, ∃ s' behind,
        (s.setDirections ds).move = some s' ∧
        s'.direction ≠ s.direction.reverse ∧
        s.body[1]? = some behind ∧ s'.body[0]? ≠ some behind := by
  obtain ⟨s, hs, hst⟩ := Snake.steady_calls calls s0.reset (Snake.steady_reset s0)
  refine ⟨s, hs, hst.2, ?_⟩
  intro ds
  obtain ⟨hst', hb, hd⟩ := Snake.steady_setDirections ds s hst
  obtain ⟨s', front, behind, rest, hm, hbody, hbody', hdir, -, hne, -⟩ :=
    Snake.steady_move _ hst'
  refine ⟨s', behind, hm, ?_, ?_, ?_⟩
  · rw [hdir, ← hd]; exact hst'.2
  · rw [← hb, hbody]; simp
  · rw [hbody']
    simpa using hne


/-- Witness of C12: the calls `move`, `grow`, `setDirection(UP)`, `move` on the
reset snake. On the reset snake, `UP` then `DOWN` in one frame commits `DOWN`
and `UP` then `LEFT` commits `UP`: never `LEFT`. -/
theorem Snake.no_reversal_witness :
    (∃ s,
      Snake.new.reset.calls
          [SnakeCall.move, SnakeCall.grow, SnakeCall.setDirection Direction.UP,
            SnakeCall.move] = some s ∧
        s.nextDirection ≠ s.direction.reverse ∧
        ∀ ds : List Direction, ∃ s' behind,
          (s.setDirections ds).move = some s' ∧
          s'.direction ≠ s.direction.reverse ∧
          s.body[1]? = some behind ∧ s'.body[0]? ≠ some behind) ∧
    (Snake.new.setDirections [Direction.UP, Direction.DOWN]).move =
      some { body := [⟨20, 16⟩, ⟨20, 15⟩, ⟨19, 15⟩], direction := Direction.DOWN,
             nextDirection := Direction.DOWN } ∧
    (Snake.new.setDirections [Direction.UP, Direction.LEFT]).move =
      some { body := [⟨20, 14⟩, ⟨20, 15⟩, ⟨19, 15⟩], direction := Direction.UP,
             nextDirection := Direction.UP } :=
  ⟨Snake.no_reversal Snake.new
      [SnakeCall.move, SnakeCall.grow, SnakeCall.setDirection Direction.UP, SnakeCall.move],
    by decide, by decide⟩

/-! ## Game: the head that `grow` adds on an eating tick -/

lemma Game.handleEvent_body_ne_nil (g g' : Game) (e : Event) (h : g.snake.body ≠ [])
    (he : g.handleEvent e = some g') : g'.snake.body ≠ [] := by
  by_cases hsp : e = Event.KeyPressed Key.Space ∧
      (g.gameState = GameState.MENU ∨ g.gameState = GameState.GAME_OVER)
  · obtain ⟨rfl, hs⟩ := hsp
    rw [Game.handleEvent_space g hs] at he
    obtain ⟨r, hr, rfl⟩ := Option.map_eq_some'.1 he
    obtain ⟨fruit, -, rfl⟩ := (Game.resetGame_eq_some g r).1 hr
    simp [Snake.reset]
  · by_cases hp : e = Event.KeyPressed Key.P ∧
        (g.gameState = GameState.PLAYING ∨ g.gameState = GameState.PAUSED)
    · obtain ⟨rfl, hs⟩ := hp
      rcases hs with hs | hs <;> simp [Game.handleEvent, hs] at he <;> rw [← he] <;> exact h
    · cases e with
      | Closed => simp [Game.handleEvent] at he; rw [← he]; exact h
      | Other => simp [Game.handleEvent] at he; rw [← he]; exact h
      | KeyPressed code =>
        cases code with
        | Up | Down | Left | Right =>
          by_cases hpl : g.gameState = GameState.PLAYING
          · simp only [Game.handleEvent, hpl, if_true, Option.some.injEq] at he
            rw [← he]
            simp only [(Snake.setDirection_body _ _).1]
            exact h
          · simp only [Game.handleEvent, hpl, if_false, Option.some.injEq] at he
            rw [← he]; exact h
        | Space =>
          have hs : ¬ (g.gameState = GameState.MENU ∨ g.gameState = GameState.GAME_OVER) :=
            fun hs => hsp ⟨rfl, hs⟩
          simp only [Game.handleEvent, hs, if_false, Option.some.injEq] at he
          rw [← he]; exact h
        | P =>
          have hs : ¬ (g.gameState = GameState.PLAYING ∨ g.gameState = GameState.PAUSED) :=
            fun hs => hp ⟨rfl, hs⟩
          rw [not_or] at hs
          simp only [Game.handleEvent, hs.1, hs.2, if_false, Option.some.injEq] at he
          rw [← he]; exact h
        | Escape | S | M | F | Other =>
          simp only [Game.handleEvent, Option.some.injEq] at he
          rw [← he]; exact h

lemma Game.update_body_ne_nil (g g' : Game) (elapsed : Int) (h : g.snake.body ≠ [])
    (hu : g.update elapsed = some g') : g'.snake.body ≠ [] := by
  by_cases hp : g.gameState = GameState.PLAYING
  · by_cases hd : g.tickDue elapsed = true
    · obtain ⟨w, ⟨body, d, nd⟩, fruit, am, gs, score, speed, lu, prev⟩ := g
      cases body with
      | nil => exact absurd rfl h
      | cons front rest =>
        simp only at hp
        subst hp
        have hd' : elapsed - lu ≥ milliseconds (floatToInt speed) := by
          simpa [Game.tickDue] using hd
        rw [Game.update_playing w front rest d nd fruit am score speed lu prev elapsed hd'] at hu
        split at hu
        · simp only [Option.some.injEq] at hu; rw [← hu]; simp
        · split at hu
          · split at hu
            · simp at hu
            · simp only [Option.some.injEq] at hu; rw [← hu]; simp
          · simp only [Option.some.injEq] at hu; rw [← hu]; simp
    · simp only [Game.update, hp, ne_eq, not_true_eq_false, if_false, hd, Bool.false_eq_true,
        Option.some.injEq] at hu
      rw [← hu]; exact h
  · rw [Game.update_not_playing g elapsed hp] at hu
    simp only [Option.some.injEq] at hu
    rw [← hu]; exact h

lemma Game.steps_body_ne_nil (inputs : List Input) :
    ∀ g g' : Game, g.snake.body ≠ [] → g.steps inputs = some g' → g'.snake.body ≠ [] := by
  induction inputs with
  | nil =>
    intro g g' h hs
    simp only [Game.steps, Option.some.injEq] at hs
    rw [← hs]; exact h
  | cons i rest ih =>
    intro g g' h hs
    simp only [Game.steps] at hs
    cases hst : g.step i with
    | none => rw [hst] at hs; simp at hs
    | some g1 =>
      rw [hst] at hs
      refine ih g1 g' ?_ hs
      cases i with
      | event e => exact Game.handleEvent_body_ne_nil g g1 e h hst
      | poll elapsed => exact Game.update_body_ne_nil g g1 elapsed h hst

lemma Game.play_body_ne_nil (rng : List Position) (inputs : List Input) (g : Game)
    (h : Game.play rng inputs = some g) : g.snake.body ≠ [] := by
  unfold Game.play at h
  cases hn : Game.new rng with
  | none => rw [hn] at h; simp at h
  | some g0 =>
    rw [hn] at h
    refine Game.steps_body_ne_nil inputs g0 g ?_ h
    unfold Game.new at hn
    cases hf : Fruit.new GRID_WIDTH GRID_HEIGHT rng with
    | none => rw [hf] at hn; simp at hn
    | some fruit =>
      rw [hf] at hn
      simp only [Option.some.injEq] at hn
      rw [← hn]
      simp [Snake.new, Snake.reset]

/-- C13, the code at the failing input. The body is non-empty in every state a
session reaches. The session `loopInputs` with the draws `loopRng` starts in
`MENU`, is `PLAYING` before its last tick with a body of six
distinct segments, the head on `(25,17)` about to turn `UP` and the fruit on
`(25,16)`. The last tick moves the head onto the fruit and `grow` then adds the
head `(25,15)`, a cell the tail still occupies: the game is `PLAYING` with
`(25,15)` twice in the body. -/
theorem Game.eat_then_body_repeats :
    (∀ (rng : List Position) (inputs : List Input) (g : Game),
      Game.play rng inputs = some g → g.snake.body ≠ []) ∧
    (Game.play loopRng []).map (fun g => (g.gameState, decide g.fruit.rngInRange)) =
      some (GameState.MENU, true) ∧
    (Game.play loopRng loopInputs.dropLast).map
        (fun g => (g.gameState, g.snake.body, g.snake.nextDirection, g.fruit.position,
          decide g.snake.body.Nodup)) =
      some (GameState.PLAYING,
        [⟨25, 17⟩, ⟨26, 17⟩, ⟨26, 16⟩, ⟨26, 15⟩, ⟨25, 15⟩, ⟨24, 15⟩],
        Direction.UP, ⟨25, 16⟩, true) ∧
    (Game.play loopRng loopInputs).map
        (fun g => (g.gameState, g.snake.body, decide g.snake.body.Nodup,
          g.snake.checkSelfCollision)) =
      some (GameState.PLAYING,
        [⟨25, 15⟩, ⟨25, 16⟩, ⟨25, 17⟩, ⟨26, 17⟩, ⟨26, 16⟩, ⟨26, 15⟩, ⟨25, 15⟩],
        false, some true) := by
  refine ⟨Game.play_body_ne_nil, by decide!, by decide!, by decide!⟩

/-- C14, the code at the failing input: the session `wallInputs` with the draws
`wallRng` is `PLAYING` before its last tick with the head on `(20,28)` heading
`DOWN` and the fruit on `(20,29)`, in the bottom row. The last tick moves the
head onto the fruit and `grow` then adds the head `(20,30)`, below the grid:
the game is `PLAYING` and `isValidPosition` of the head is `false`. A further
tick ends the game. -/
theorem Game.eat_then_head_outside_grid :
    (Game.play wallRng []).map (fun g => (g.gameState, decide g.fruit.rngInRange)) =
      some (GameState.MENU, true) ∧
    (Game.play wallRng wallInputs.dropLast).map
        (fun g => (g.gameState, g.snake.body, g.snake.nextDirection, g.fruit.position)) =
      some (GameState.PLAYING, [⟨20, 28⟩, ⟨20, 27⟩, ⟨20, 26⟩], Direction.DOWN, ⟨20, 29⟩) ∧
    (Game.play wallRng wallInputs).map
        (fun g => (g.gameState, g.snake.body, g.snake.getHead.map isValidPosition)) =
      some (GameState.PLAYING, [⟨20, 30⟩, ⟨20, 29⟩, ⟨20, 28⟩, ⟨20, 27⟩], some false) ∧
    (Game.play wallRng (wallInputs ++ [Input.poll 2250000])).map (fun g => g.gameState) =
      some GameState.GAME_OVER := by
  refine ⟨by decide!, by decide!, by decide!, by decide!⟩


/-! ## Game: the speeds a session stores -/

lemma Game.storedSpeed_of_eq (g g' : Game) (h : g.storedSpeed)
    (he : g'.gameSpeed = g.gameSpeed) : g'.storedSpeed := by
  obtain ⟨k, hk, hv⟩ := h
  exact ⟨k, hk, he.trans hv⟩

lemma Game.storedSpeed_of_base (g : Game) (h : g.gameSpeed = BASE_SPEED) : g.storedSpeed :=
  ⟨0, by omega, by rw [h]; simp⟩

lemma Game.storedSpeed_max (g : Game) (h : g.storedSpeed) :
    (if g.gameSpeed > 50 then g.gameSpeed - 5 else g.gameSpeed) = max 50 (g.gameSpeed - 5) ∧
    ∃ k : ℕ, k ≤ 20 ∧
      (if g.gameSpeed > 50 then g.gameSpeed - 5 else g.gameSpeed) =
        BASE_SPEED - SPEED_INCREASE * (k : ℚ) := by
  obtain ⟨k, hk, hv⟩ := h
  simp only [BASE_SPEED, SPEED_INCREASE] at hv ⊢
  have hkq : (k : ℚ) ≤ 20 := by exact_mod_cast hk
  rcases Nat.lt_or_ge k 20 with hlt | hge
  · have hk1 : (k : ℚ) + 1 ≤ 20 := by exact_mod_cast hlt
    have h50 : g.gameSpeed > 50 := by rw [hv]; linarith
    rw [if_pos h50]
    refine ⟨?_, k + 1, hlt, ?_⟩
    · rw [max_eq_right (by rw [hv]; linarith)]
    · rw [hv]; push_cast; ring
  · have hk20 : k = 20 := by omega
    subst hk20
    have h50 : g.gameSpeed = 50 := by rw [hv]; norm_num
    rw [if_neg (by rw [h50]; norm_num)]
    refine ⟨?_, 20, le_rfl, hv⟩
    rw [h50]; norm_num

lemma Game.handleEvent_storedSpeed (g g' : Game) (e : Event) (h : g.storedSpeed)
    (he : g.handleEvent e = some g') : g'.storedSpeed := by
  by_cases hsp : e = Event.KeyPressed Key.Space ∧
      (g.gameState = GameState.MENU ∨ g.gameState = GameState.GAME_OVER)
  · obtain ⟨rfl, hs⟩ := hsp
    rw [Game.handleEvent_space g hs] at he
    obtain ⟨r, hr, rfl⟩ := Option.map_eq_some'.1 he
    obtain ⟨fruit, -, rfl⟩ := (Game.resetGame_eq_some g r).1 hr
    exact Game.storedSpeed_of_base _ rfl
  · by_cases hp : e = Event.KeyPressed Key.P ∧
        (g.gameState = GameState.PLAYING ∨ g.gameState = GameState.PAUSED)
    · obtain ⟨rfl, hs⟩ := hp
      rcases hs with hs | hs <;> simp [Game.handleEvent, hs] at he <;> rw [← he] <;>
        exact Game.storedSpeed_of_eq g _ h rfl
    · obtain ⟨g1, hg1, -, -, -, -, hspeed, -⟩ := Game.handleEvent_other g e hsp hp
      rw [hg1] at he
      simp only [Option.some.injEq] at he
      subst he
      exact Game.storedSpeed_of_eq g _ h hspeed

lemma Game.update_storedSpeed (g g' : Game) (elapsed : Int) (h : g.storedSpeed)
    (hu : g.update elapsed = some g') : g'.storedSpeed := by
  by_cases hp : g.gameState = GameState.PLAYING
  · by_cases hd : g.tickDue elapsed = true
    · obtain ⟨w, ⟨body, d, nd⟩, fruit, am, gs, score, speed, lu, prev⟩ := g
      cases body with
      | nil =>
        simp only at hp
        subst hp
        simp [Game.update, hd, Snake.move] at hu
      | cons front rest =>
        simp only at hp
        subst hp
        have hd' : elapsed - lu ≥ milliseconds (floatToInt speed) := by
          simpa [Game.tickDue] using hd
        have hmax := (Game.storedSpeed_max _ h).2
        rw [Game.update_playing w front rest d nd fruit am score speed lu prev elapsed hd'] at hu
        split at hu
        · simp only [Option.some.injEq] at hu; rw [← hu]
          exact Game.storedSpeed_of_eq _ _ h rfl
        · split at hu
          · split at hu
            · simp at hu
            · simp only [Option.some.injEq] at hu; rw [← hu]
              exact hmax
          · simp only [Option.some.injEq] at hu; rw [← hu]
            exact Game.storedSpeed_of_eq _ _ h rfl
    · simp only [Game.update, hp, ne_eq, not_true_eq_false, if_false, hd, Bool.false_eq_true,
        Option.some.injEq] at hu
      rw [← hu]; exact h
  · rw [Game.update_not_playing g elapsed hp] at hu
    simp only [Option.some.injEq] at hu
    rw [← hu]; exact h

lemma Game.steps_storedSpeed (inputs : List Input) :
    ∀ g g' : Game, g.storedSpeed → g.steps inputs = some g' → g'.storedSpeed := by
  induction inputs with
  | nil =>
    intro g g' h hs
    simp only [Game.steps, Option.some.injEq] at hs
    rw [← hs]; exact h
  | cons i rest ih =>
    intro g g' h hs
    simp only [Game.steps] at hs
    cases hst : g.step i with
    | none => rw [hst] at hs; simp at hs
    | some g1 =>
      rw [hst] at hs
      refine ih g1 g' ?_ hs
      cases i with
      | event e => exact Game.handleEvent_storedSpeed g g1 e h hst
      | poll elapsed => exact Game.update_storedSpeed g g1 elapsed h hst

lemma Game.play_storedSpeed (rng : List Position) (inputs : List Input) (g : Game)
    (h : Game.play rng inputs = some g) : g.storedSpeed := by
  unfold Game.play at h
  cases hn : Game.new rng with
  | none => rw [hn] at h; simp at h
  | some g0 =>
    rw [hn] at h
    refine Game.steps_storedSpeed inputs g0 g ?_ h
    unfold Game.new at hn
    cases hf : Fruit.new GRID_WIDTH GRID_HEIGHT rng with
    | none => rw [hf] at hn; simp at hn
    | some fruit =>
      rw [hf] at hn
      simp only [Option.some.injEq] at hn
      rw [← hn]
      exact Game.storedSpeed_of_base _ rfl

/-- C9: for every score and every speed value the game stores (150, 145, ...,
50), `Game::updateScore` sets the score to `score + 10` and the speed to
`max(50, speed - 5)`, floor 50 and step `SPEED_INCREASE = 5`, in exact rational
arithmetic. The new speed is again a stored value and nothing else in the game
changes. -/
theorem Game.updateScore_spec (g : Game) (hs : g.storedSpeed) :
    g.updateScore.score = g.score + 10 ∧
    g.updateScore.gameSpeed = max 50 (g.gameSpeed - SPEED_INCREASE) ∧
    SPEED_INCREASE = 5 ∧
    g.updateScore.storedSpeed ∧
    g.updateScore.snake = g.snake ∧ g.updateScore.fruit = g.fruit ∧
    g.updateScore.gameState = g.gameState ∧ g.updateScore.lastUpdate = g.lastUpdate := by
  obtain ⟨hmax, hst⟩ := Game.storedSpeed_max g hs
  refine ⟨Game.updateScore_score g, ?_, rfl, ?_,
    (Game.updateScore_rest g).1, (Game.updateScore_rest g).2.1, (Game.updateScore_rest g).2.2.1,
    (Game.updateScore_rest g).2.2.2.1⟩
  · rw [Game.updateScore_gameSpeed, hmax]; rfl
  · unfold Game.storedSpeed
    rw [Game.updateScore_gameSpeed]
    exact hst

/-- Witness of C9: at the floor, score 200 and speed 50, `updateScore` gives
score 210 and leaves the speed at 50. Every state of every session holds a
stored speed. -/
theorem Game.updateScore_spec_witness :
    (slowestGame.updateScore.score = slowestGame.score + 10 ∧
      slowestGame.updateScore.gameSpeed = max 50 (slowestGame.gameSpeed - SPEED_INCREASE) ∧
      SPEED_INCREASE = 5 ∧
      slowestGame.updateScore.storedSpeed ∧
      slowestGame.updateScore.snake = slowestGame.snake ∧
      slowestGame.updateScore.fruit = slowestGame.fruit ∧
      slowestGame.updateScore.gameState = slowestGame.gameState ∧
      slowestGame.updateScore.lastUpdate = slowestGame.lastUpdate) ∧
    slowestGame.score = 200 ∧ slowestGame.gameSpeed = 50 ∧
    slowestGame.updateScore.score = 210 ∧ slowestGame.updateScore.gameSpeed = 50 ∧
    exampleGame.updateScore.gameSpeed = 145 ∧
    ∀ (rng : List Position) (inputs : List Input) (g : Game),
      Game.play rng inputs = some g → g.storedSpeed :=
  ⟨Game.updateScore_spec slowestGame ⟨20, le_rfl, by norm_num [slowestGame, BASE_SPEED,
      SPEED_INCREASE]⟩,
    rfl, rfl, by decide!, by decide!, by decide!, Game.play_storedSpeed⟩


end SnakeGame
